import Mathlib

/-!
Verification development for the SimGrid simulation kernel: shallow Lean
embeddings of the CPU resource (src/surf/cpu_interface.cpp), the Disk
resource and its S19 model (src/kernel/resource/DiskImpl.cpp,
src/surf/disk_s19.cpp), the Raw synchronization activity
(src/kernel/activity/SynchroRaw.cpp) and the engine scheduling loop
(src/kernel/EngineImpl.cpp), with theorems checking the natural-language
specification against them.  Doubles are modelled as rationals.
-/

namespace SimGridKernel

/-! ## CPU resource (src/surf/cpu_interface.cpp) -/

/-- Modelled from the spec: an lmm constraint, as created by the solver
call `System::constraint_new(id, bound)` (the maxmin solver sources are
not part of this source tree); per the spec a Constraint has a capacity
and an owner, recorded here by numeric resource id and capacity. -/
structure LmmConstraint where
  owner : ℕ
  capacity : ℚ
  deriving Repr, DecidableEq

/-- Modelled from the spec: the constraint store of one model's lmm
system; `constraint_new` registers a new constraint, deterministic by
insertion order, hence a list append. -/
def constraint_new (sys : List LmmConstraint) (owner : ℕ) (capacity : ℚ) :
    List LmmConstraint :=
  sys ++ [⟨owner, capacity⟩]

/-- State of a `Cpu` resource: the p-state speed vector, the current
p-state index, the current peak speed and speed scale (`speed_.peak`,
`speed_.scale`), the core count, and the sealed flag.  The resource id
stands for the `this` pointer used as constraint owner. -/
structure Cpu where
  id : ℕ
  speed_per_pstate : List ℚ
  pstate : ℕ
  speed_peak : ℚ
  speed_scale : ℚ
  core_count : ℕ
  is_sealed : Bool
  deriving Repr, DecidableEq

/-- Constructor `Cpu::Cpu`: scale is set to 1, peak to the front of the
p-state vector; the p-state index starts at its default value 0. -/
def Cpu.mk0 (id : ℕ) (speed_per_pstate : List ℚ) : Cpu :=
  { id := id
    speed_per_pstate := speed_per_pstate
    pstate := 0
    speed_peak := speed_per_pstate.headI
    speed_scale := 1
    core_count := 1
    is_sealed := false }

/-- The guard of the `xbt_assert` in `Cpu::set_pstate` and of the
identical one in `Cpu::get_pstate_peak_speed`: the call is accepted
exactly when `pstate_index <= speed_per_pstate_.size()` (the index is a
C `int`, hence `ℤ`). -/
def pstate_guard (speed_per_pstate : List ℚ) (pstate_index : ℤ) : Bool :=
  decide (pstate_index ≤ (speed_per_pstate.length : ℤ))

/-- An index is within bounds of the p-state vector. -/
def pstate_in_bounds (speed_per_pstate : List ℚ) (pstate_index : ℤ) : Prop :=
  0 ≤ pstate_index ∧ pstate_index < (speed_per_pstate.length : ℤ)

/-- Body of `Cpu::set_pstate` past its assertion: read
`speed_per_pstate_[pstate_index]`, store the index and the new peak.
(An out-of-bounds read is undefined behavior in the source; here the
vector read is totalized with a default, which is only exercised by the
out-of-bounds inputs studied in the safety claim.) -/
def Cpu.set_pstate (c : Cpu) (pstate_index : ℕ) : Cpu :=
  { c with
    pstate := pstate_index
    speed_peak := c.speed_per_pstate.getD pstate_index 0 }

/-- Function `Cpu::seal` on the non-CpuTi path (`ti_model = false` keeps
the `dynamic_cast<CpuTiModel*> == nullptr` branch): create one
constraint of capacity `core_count_ * speed_per_pstate_.front()` in the
CPU model's lmm system, then mark the resource sealed. -/
def Cpu.seal (c : Cpu) (ti_model : Bool) (sys : List LmmConstraint) :
    Cpu × List LmmConstraint :=
  let sys' := if ti_model then sys else constraint_new sys c.id
      ((c.core_count : ℚ) * c.speed_per_pstate.headI)
  ({ c with is_sealed := true }, sys')

/-- Constraints of the given owner present in a system. -/
def owned_constraints (sys : List LmmConstraint) (owner : ℕ) :
    List LmmConstraint :=
  sys.filter (fun k => k.owner = owner)

/-! ## Disk resource (src/kernel/resource/DiskImpl.cpp, src/surf/disk_s19.cpp) -/

/-- State of a `DiskImpl`/`DiskS19` resource: read and write bandwidth
metrics (`peak` and `scale` of `read_bw_` and `write_bw_`), the three
constraint slots (`constraint_read_`, `constraint_write_` and the base
`constraint_` holding the aggregate), each recorded by its current
capacity bound when created, the sealed flag and the on/off state. -/
structure Disk where
  read_peak : ℚ
  read_scale : ℚ
  write_peak : ℚ
  write_scale : ℚ
  constraint_read : Option ℚ
  constraint_write : Option ℚ
  constraint : Option ℚ
  is_sealed : Bool
  is_on : Bool
  deriving Repr, DecidableEq

/-- Constructor `DiskImpl::DiskImpl`: peaks from the arguments, both
scales set to 1, no constraints yet. -/
def Disk.mk0 (read_bandwidth write_bandwidth : ℚ) : Disk :=
  { read_peak := read_bandwidth
    read_scale := 1
    write_peak := write_bandwidth
    write_scale := 1
    constraint_read := none
    constraint_write := none
    constraint := none
    is_sealed := false
    is_on := false }

/-- Function `DiskImpl::seal`, returning the sealed disk together with
the list of capacities passed to the three `constraint_new` calls (in
call order: read, write, aggregate); an already sealed disk returns
unchanged with no constraint created. -/
def Disk.seal_c (d : Disk) : Disk × List ℚ :=
  if d.is_sealed then (d, [])
  else
    ({ d with
        constraint_read := some (d.read_peak * d.read_scale)
        constraint_write := some (d.write_peak * d.write_scale)
        constraint := some (max d.read_peak d.write_peak)
        is_sealed := true
        is_on := true },
      [d.read_peak * d.read_scale, d.write_peak * d.write_scale,
        max d.read_peak d.write_peak])

/-- Function `DiskImpl::seal`, state part only. -/
def Disk.seal (d : Disk) : Disk := d.seal_c.1

/-- Modelled from the spec: the solver call
`System::update_constraint_bound` (maxmin sources not in this source
tree) rewrites the capacity of an existing constraint. -/
def update_constraint_bound (c : Option ℚ) (bound : ℚ) : Option ℚ :=
  c.map (fun _ => bound)

/-- Function `DiskS19::set_read_bandwidth`: store the new read peak,
then update the bound of `get_constraint()` — the base (aggregate)
constraint slot, as in the source — to `read_bw_.peak * read_bw_.scale`.
(The subsequent sharing-penalty adjustment `update_penalties(delta)`
only touches the penalties of attached actions, not any capacity, and is
not modelled here.) -/
def Disk.set_read_bandwidth (d : Disk) (value : ℚ) : Disk :=
  let d1 := { d with read_peak := value }
  { d1 with
    constraint :=
      update_constraint_bound d1.constraint (d1.read_peak * d1.read_scale) }

/-- Function `DiskS19::set_write_bandwidth`: store the new write peak,
then update the bound of `get_constraint()` — the base (aggregate)
constraint slot, as in the source — to
`write_bw_.peak * write_bw_.scale`. -/
def Disk.set_write_bandwidth (d : Disk) (value : ℚ) : Disk :=
  let d1 := { d with write_peak := value }
  { d1 with
    constraint :=
      update_constraint_bound d1.constraint (d1.write_peak * d1.write_scale) }

/-- Which profile event of a disk fired (`read_bw_.event`,
`write_bw_.event` or `state_event_`). -/
inductive DiskEvent
  | read_bw
  | write_bw
  | state_ev
  deriving Repr, DecidableEq

/-- Function `DiskS19::apply_event`: dispatch on the triggered event
(the trace-event unref only drops the profile handle). -/
def Disk.apply_event (d : Disk) (triggered : DiskEvent) (value : ℚ) : Disk :=
  match triggered with
  | DiskEvent.read_bw => d.set_read_bandwidth value
  | DiskEvent.write_bw => d.set_write_bandwidth value
  | DiskEvent.state_ev =>
      if 0 < value then { d with is_on := true } else { d with is_on := false }

/-! ## DiskS19 model: io_start (src/surf/disk_s19.cpp) -/

/-- I/O operation type `s4u::Io::OpType`. -/
inductive OpType
  | READ
  | WRITE
  deriving Repr, DecidableEq

/-- Which of a disk's constraints a variable element points to. -/
inductive DiskConstraintKind
  | aggregate
  | read_c
  | write_c
  deriving Repr, DecidableEq

/-- Reference to one constraint of one disk (the disk by numeric id). -/
structure DiskConstraintRef where
  disk : ℕ
  kind : DiskConstraintKind
  deriving Repr, DecidableEq

/-- Modelled from the spec: an lmm variable, as created by the solver
call `System::variable_new(id, sharing_penalty, bound,
number_of_constraints)` (maxmin sources not in this source tree): the
owning action (by index), the penalty and bound arguments, the size
hint for the constraint list, and the elements added by `System::expand`
as (constraint, coefficient) pairs. -/
structure LmmVariable where
  action_id : ℕ
  sharing_penalty : ℚ
  bound : ℚ
  size_hint : ℕ
  elems : List (DiskConstraintRef × ℚ)
  deriving Repr, DecidableEq, Inhabited

/-- The variable store of the disk model's lmm system. -/
structure DiskLmmSys where
  vars : List LmmVariable
  deriving Repr, DecidableEq

/-- Modelled from the spec: solver call `System::variable_new` — append
a fresh variable with no elements yet and return its index. -/
def variable_new (sys : DiskLmmSys) (action_id : ℕ)
    (sharing_penalty bound : ℚ) (size_hint : ℕ) : DiskLmmSys × ℕ :=
  ({ vars := sys.vars ++ [⟨action_id, sharing_penalty, bound, size_hint, []⟩] },
    sys.vars.length)

/-- Modelled from the spec: solver call
`System::expand(constraint, variable, coefficient)` — append one
(constraint, coefficient) element to the given variable. -/
def expand (sys : DiskLmmSys) (cnst : DiskConstraintRef) (var_idx : ℕ)
    (coef : ℚ) : DiskLmmSys :=
  { vars :=
      sys.vars.modify
        (fun v => { v with elems := v.elems ++ [(cnst, coef)] }) var_idx }

/-- A `DiskS19Action` as built by its constructor
`DiskS19Action(model, cost, failed)`: the cost is the I/O size and the
failed flag is `not disk->is_on()`; the constructor creates the action's
variable through `variable_new(this, 1.0, -1.0, 3)`. -/
structure DiskS19Action where
  cost : ℚ
  failed : Bool
  variable_idx : ℕ
  deriving Repr, DecidableEq

/-- Function `DiskS19Model::io_start(disk, size, type)`: build a
`DiskS19Action` (creating its variable with penalty 1, bound −1 and a
size hint of 3 constraints), expand the variable into the disk's
aggregate constraint with coefficient 1, then into the disk's read or
write constraint with coefficient 1 according to the operation type.
The disk is given by its id and on/off state. -/
def io_start (sys : DiskLmmSys) (disk : ℕ) (disk_on : Bool) (size : ℚ)
    (ty : OpType) : DiskLmmSys × DiskS19Action :=
  let action_id := sys.vars.length
  let r1 := variable_new sys action_id 1 (-1) 3
  let s2 := expand r1.1 ⟨disk, DiskConstraintKind.aggregate⟩ r1.2 1
  let s3 :=
    match ty with
    | OpType.READ => expand s2 ⟨disk, DiskConstraintKind.read_c⟩ r1.2 1
    | OpType.WRITE => expand s2 ⟨disk, DiskConstraintKind.write_c⟩ r1.2 1
  (s3, { cost := size, failed := ! disk_on, variable_idx := r1.2 })

/-- The constraint kind matching an operation type. -/
def kind_of_op (ty : OpType) : DiskConstraintKind :=
  match ty with
  | OpType.READ => DiskConstraintKind.read_c
  | OpType.WRITE => DiskConstraintKind.write_c

/-! ## Action progress updates (src/surf/cpu_interface.cpp,
src/surf/disk_s19.cpp) -/

/-- Resource action states (`Action::State`). -/
inductive ActionState
  | INITED
  | STARTED
  | FAILED
  | FINISHED
  | IGNORED
  deriving Repr, DecidableEq

/-- The per-action data read and written by `update_actions_state`: the
remaining work, the optional max duration (`none` encodes
`NO_MAX_DURATION`), the variable's sharing penalty
(`get_variable()->get_penalty()`), the rate allocated by the last solve
(`get_variable()->get_value()`) and the action state. -/
structure ResourceAction where
  remains : ℚ
  max_duration : Option ℚ
  sharing_penalty : ℚ
  value : ℚ
  state : ActionState
  deriving Repr, DecidableEq

/-- Modelled from the spec: `Action::update_remains` (the `Action` class
implementation is not part of this source tree) subtracts the given
progress from the remaining work and clamps it at zero, maintaining the
specified invariant `remaining ≥ 0` (the source clamps through a
`double_update` with a small positive precision, taken as 0 here). -/
def update_remains (a : ResourceAction) (delta : ℚ) : ResourceAction :=
  { a with
    remains := if a.remains - delta ≤ 0 then 0 else a.remains - delta }

/-- Modelled from the spec: `Action::update_max_duration` (not part of
this source tree) decreases the max duration, when one is set, by the
elapsed delta, clamping at zero like `update_remains`. -/
def update_max_duration (a : ResourceAction) (delta : ℚ) : ResourceAction :=
  { a with
    max_duration :=
      a.max_duration.map (fun md => if md - delta ≤ 0 then 0 else md - delta) }

/-- The test `get_max_duration() != NO_MAX_DURATION && get_max_duration()
<= 0` of the finish condition. -/
def max_duration_reached (a : ResourceAction) : Bool :=
  match a.max_duration with
  | some md => decide (md ≤ 0)
  | none => false

/-- The loop body shared verbatim by `CpuModel::update_actions_state_full`
and `DiskS19Model::update_actions_state` for one started action, with
the subtracted progress abstracted: update the remaining work by the
progress and the max duration by `delta`; if the remaining work is
exhausted while the variable has a positive sharing penalty, or the max
duration is exhausted, finish the action in state FINISHED. -/
def update_one_core (progress delta : ℚ) (a : ResourceAction) :
    ResourceAction :=
  let a1 := update_max_duration (update_remains a progress) delta
  if (a1.remains ≤ 0 ∧ 0 < a1.sharing_penalty) ∨
      max_duration_reached a1 = true then
    { a1 with state := ActionState.FINISHED }
  else a1

/-- The body of `CpuModel::update_actions_state_full` for one started
action: the progress is `get_variable()->get_value() * delta`. -/
def cpu_update_one (delta : ℚ) (a : ResourceAction) : ResourceAction :=
  update_one_core (a.value * delta) delta a

/-- Function `CpuModel::update_actions_state_full` over the started
action set. -/
def update_actions_state_full (delta : ℚ) (started : List ResourceAction) :
    List ResourceAction :=
  started.map (cpu_update_one delta)

/-- The C `rint` function on rationals: round to the nearest integer,
ties to even (the default floating-point rounding mode). -/
def rintQ (q : ℚ) : ℤ :=
  if q - ⌊q⌋ < 1 / 2 then ⌊q⌋
  else if 1 / 2 < q - ⌊q⌋ then ⌊q⌋ + 1
  else if ⌊q⌋ % 2 = 0 then ⌊q⌋
  else ⌊q⌋ + 1

/-- The body of `DiskS19Model::update_actions_state` for one started
action: like the CPU version, but the progress subtracted from the
remaining work is `rint(get_variable()->get_value() * delta)`. -/
def disk_update_one (delta : ℚ) (a : ResourceAction) : ResourceAction :=
  update_one_core ((rintQ (a.value * delta) : ℚ)) delta a

/-- Function `DiskS19Model::update_actions_state` over the started
action set. -/
def disk_update_actions_state (delta : ℚ) (started : List ResourceAction) :
    List ResourceAction :=
  started.map (disk_update_one delta)

/-! ## Raw synchronization activity (src/kernel/activity/SynchroRaw.cpp) -/

/-- Activity states reached by `RawImpl` (`ActivityImpl::State`). -/
inductive ActivityState
  | WAITING
  | RUNNING
  | FAILED
  | SRC_TIMEOUT
  deriving Repr, DecidableEq

/-- A CPU sleep action, as handed back by `Cpu::sleep`. -/
structure SleepAction where
  host : ℕ
  duration : ℚ
  state : ActionState
  deriving Repr, DecidableEq

/-- Modelled from the spec: `Cpu::sleep(duration)` (the concrete CPU
model implementation is not part of this source tree) creates a started
CPU action lasting the given number of seconds on that CPU. -/
def cpu_sleep (host : ℕ) (duration : ℚ) : SleepAction :=
  ⟨host, duration, ActionState.STARTED⟩

/-- State of a `RawImpl` synchronization activity: host, timeout, the
bound surf action, the activity state and the list of waiting simcalls
(each by its issuer's pid). -/
structure Raw where
  host : ℕ
  timeout : ℚ
  surf_action : Option SleepAction
  state : ActivityState
  simcalls : List ℕ
  deriving Repr, DecidableEq

/-- Function `RawImpl::set_host`. -/
def Raw.set_host (r : Raw) (h : ℕ) : Raw := { r with host := h }

/-- Function `RawImpl::set_timeout`. -/
def Raw.set_timeout (r : Raw) (t : ℚ) : Raw := { r with timeout := t }

/-- Function `RawImpl::start`: bind a CPU sleep of `timeout_` seconds on
the host's CPU (the back pointer installed by `set_activity` is not
modelled). -/
def Raw.start (r : Raw) : Raw :=
  { r with surf_action := some (cpu_sleep r.host r.timeout) }

/-- The effects of `RawImpl::finish` on the single waiting simcall's
issuer: the updated activity, the answered issuer, the exception stored
into the issuer (if any), whether the issuer's context was marked
wannadie and whether `waiting_synchro_` was cleared. -/
structure RawFinish where
  raw : Raw
  answered_issuer : ℕ
  issuer_error : Option String
  issuer_wannadie : Bool
  issuer_waiting_cleared : Bool
  deriving Repr, DecidableEq

/-- Function `RawImpl::finish`: pop the single waiting simcall (the
`xbt_assert` that exactly one simcall waits, and the one that a
non-FAILED raw must be in SRC_TIMEOUT, abort on any other input: `none`).
A FAILED raw marks the issuer wannadie and stores a HostFailureException;
in both surviving cases the issuer's `waiting_synchro_` is cleared and
its simcall answered. -/
def Raw.finish (r : Raw) : Option RawFinish :=
  match r.simcalls with
  | [issuer] =>
      if r.state = ActivityState.FAILED then
        some ⟨{ r with simcalls := [] }, issuer, some "HostFailure", true,
          true⟩
      else if r.state = ActivityState.SRC_TIMEOUT then
        some ⟨{ r with simcalls := [] }, issuer, none, false, true⟩
      else none
  | _ => none

/-- Function `RawImpl::post`: read the bound surf action's state — a
FAILED action moves the activity to FAILED, a FINISHED one to
SRC_TIMEOUT — then drop the action (`clean_action`) and run `finish`.
The source only calls `post` when an action is bound. -/
def Raw.post (r : Raw) : Option RawFinish :=
  match r.surf_action with
  | none => none
  | some act =>
      let st :=
        if act.state = ActionState.FAILED then ActivityState.FAILED
        else if act.state = ActionState.FINISHED then
          ActivityState.SRC_TIMEOUT
        else r.state
      Raw.finish { r with state := st, surf_action := none }

/-! ## Waking waiting actors (src/kernel/EngineImpl.cpp) -/

/-- A resource action as seen by `wake_all_waiting_actors`: only its
owning activity matters (`none` when `get_activity()` is null). -/
structure ModelAction where
  activity : Option ℕ
  deriving Repr, DecidableEq

/-- One resource model's failed and done action sets;
`extract_failed_action` and `extract_done_action` pop them in this list
order. -/
structure Model where
  failed_actions : List ModelAction
  done_actions : List ModelAction
  deriving Repr, DecidableEq

/-- One `while (auto* action = model->extract_..._action())` loop of
`wake_all_waiting_actors`: post (wake) each extracted action's activity,
skipping actions whose activity pointer is null.  (`extract_..._action`
itself is not in this source tree; per the spec's determinism rules the
set is drained in its deterministic insertion order, hence a list.) -/
def drain_actions : List ModelAction → List ℕ
  | [] => []
  | a :: rest =>
      match a.activity with
      | some act => act :: drain_actions rest
      | none => drain_actions rest

/-- Function `EngineImpl::wake_all_waiting_actors`: for each model of
`models_` in order, first post all failed actions' activities, then all
done actions' activities; the returned list is the sequence of activity
post-processings in execution order. -/
def wake_all_waiting_actors : List Model → List ℕ
  | [] => []
  | m :: ms =>
      drain_actions m.failed_actions ++ drain_actions m.done_actions ++
        wake_all_waiting_actors ms

/-- Function `EngineImpl::add_model`: models are registered by appending
to `models_`. -/
def add_model (ms : List Model) (m : Model) : List Model := ms ++ [m]

/-! ## Deadlock detection in the engine loop (src/kernel/EngineImpl.cpp) -/

/-- The dynamic type of a waiting activity, as probed by the chain of
`dynamic_pointer_cast` in `EngineImpl::display_all_actor_status`. -/
inductive ActivityKind
  | exec_k
  | comm_k
  | sleep_k
  | raw_k
  | io_k
  deriving Repr, DecidableEq

/-- The description string chosen for each activity kind. -/
def synchro_description : ActivityKind → String
  | ActivityKind.exec_k => "execution"
  | ActivityKind.comm_k => "communication"
  | ActivityKind.sleep_k => "sleeping"
  | ActivityKind.raw_k => "synchronization"
  | ActivityKind.io_k => "I/O"

/-- The activity an actor waits on, by kind and name. -/
structure WaitingActivity where
  kind : ActivityKind
  name : String
  deriving Repr, DecidableEq

/-- An actor as inspected by the deadlock diagnostic: pid, name, the
activity it waits on (`waiting_synchro_`, if any) and the name of its
last simcall (`simcall_`). -/
structure EngineActor where
  pid : ℕ
  name : String
  waiting_synchro : Option WaitingActivity
  simcall_name : String
  deriving Repr, DecidableEq

/-- One INFO line of `display_all_actor_status`: an actor waiting on an
activity is reported with the activity's description and name, any other
actor with the name of its last simcall. -/
inductive Diagnostic
  | waiting_for (pid : ℕ) (descr : String) (activity_name : String)
  | last_simcall (pid : ℕ) (simcall_name : String)
  deriving Repr, DecidableEq

/-- The diagnostic emitted for one actor by
`EngineImpl::display_all_actor_status`. -/
def actor_status (a : EngineActor) : Diagnostic :=
  match a.waiting_synchro with
  | some w =>
      Diagnostic.waiting_for a.pid (synchro_description w.kind) w.name
  | none => Diagnostic.last_simcall a.pid a.simcall_name

/-- Function `EngineImpl::display_all_actor_status`: one diagnostic per
actor of `actor_list_`, in iteration order. -/
def display_all_actor_status (actors : List EngineActor) : List Diagnostic :=
  actors.map actor_status

/-- The observable outcome of the end-of-round deadlock check: the
emitted diagnostics, whether `s4u::Engine::on_deadlock` was fired, and
the pids of the actors maestro was asked to kill. -/
structure DeadlockCheck where
  diagnostics : List Diagnostic
  on_deadlock_fired : Bool
  killed : List ℕ
  deriving Repr, DecidableEq

/-- The tail of one round of `EngineImpl::run` after the resource
sub-round computed `time`: if `time < 0.`, `actors_to_run_` is empty and
`actor_list_` is not, display every actor's status, fire
`s4u::Engine::on_deadlock` and kill every actor of `actor_list_`;
otherwise do none of this. -/
def run_deadlock_check (time : ℚ) (actors_to_run : List ℕ)
    (actor_list : List EngineActor) : DeadlockCheck :=
  if time < 0 ∧ actors_to_run = [] ∧ actor_list ≠ [] then
    ⟨display_all_actor_status actor_list, true,
      actor_list.map (fun a => a.pid)⟩
  else ⟨[], false, []⟩

end SimGridKernel

namespace SimGridKernel

/-! ### Claim C8: the p-state assertion bound -/

/-- Claim C8 (code_bug evidence): on a CPU with two p-states, the index 2
passes the assertion guard of `Cpu::set_pstate` and
`Cpu::get_pstate_peak_speed` (which checks `pstate_index <= size`), yet
it is out of bounds of the p-state vector, so the subsequent
`speed_per_pstate_[pstate_index]` access is out of bounds.  The claim
that every accepted index is within bounds is therefore violated by the
code; the assertion message itself ("pstate index out of bounds") shows
the guard was meant to reject it. -/
theorem C8_pstate_guard_admits_out_of_bounds :
    pstate_guard [1000, 500] 2 = true ∧ ¬ pstate_in_bounds [1000, 500] 2 := by
  constructor
  · decide
  · intro h
    rcases h with ⟨_, h2⟩
    simp [List.length] at h2

/-! ### Claim C2: capacity of the CPU constraint after sealing -/

/-- Claim C2, counterexample: a CPU with p-state speeds `[4, 2]` and one
core, whose p-state is set to 1 before sealing, is sealed with a
constraint of capacity `core_count * speed_per_pstate.front() = 4`,
which differs from `core_count * speed_per_pstate[pstate] * scale = 2`;
so the sealed capacity does not follow the current p-state. -/
theorem C2_seal_ignores_current_pstate :
    let c := (Cpu.mk0 7 [4, 2]).set_pstate 1
    let r := c.seal false []
    owned_constraints r.2 7 = [⟨7, 4⟩] ∧
      ((r.1.core_count : ℚ) * r.1.speed_per_pstate.getD r.1.pstate 0 *
          r.1.speed_scale = 2) ∧
      (4 : ℚ) ≠ 2 := by
  refine ⟨?_, ?_, ?_⟩
  · norm_num [Cpu.mk0, Cpu.set_pstate, Cpu.seal, constraint_new,
      owned_constraints, List.headI]
  · norm_num [Cpu.mk0, Cpu.set_pstate, Cpu.seal]
  · norm_num

/-- Claim C2, amended: sealing a CPU (non-CpuTi model) that does not yet
own a constraint creates exactly one constraint owned by it, with
capacity `core_count * speed_per_pstate.front()`; this equals the
specified `core_count * speed_per_pstate[pstate] * scale` whenever the
p-state index is 0 and the scale is 1 (their initial values) at sealing
time. -/
theorem C2_seal_one_constraint_front_capacity (c : Cpu)
    (sys : List LmmConstraint) (h_no : owned_constraints sys c.id = []) :
    let r := c.seal false sys
    owned_constraints r.2 c.id =
        [⟨c.id, (c.core_count : ℚ) * c.speed_per_pstate.headI⟩] ∧
      (c.pstate = 0 → c.speed_scale = 1 → c.speed_per_pstate ≠ [] →
        (c.core_count : ℚ) * c.speed_per_pstate.headI =
          (c.core_count : ℚ) * c.speed_per_pstate.getD c.pstate 0 *
            c.speed_scale) := by
  unfold owned_constraints at h_no
  constructor
  · simp only [Cpu.seal, Bool.false_eq_true, if_false]
    unfold owned_constraints constraint_new
    rw [List.filter_append, h_no]
    simp
  · intro h0 h1 hne
    obtain ⟨a, l, h⟩ := List.exists_cons_of_ne_nil hne
    rw [h]
    simp [h0, h1, List.headI]

/-- Witness for the amended C2 at a freshly constructed two-core CPU
with p-state speeds `[8, 3]` sealed in an empty system. -/
theorem C2_seal_one_constraint_front_capacity_witness :
    owned_constraints [] 5 = [] ∧
      owned_constraints
          (({ Cpu.mk0 5 [8, 3] with core_count := 2 }).seal false []).2 5 =
        [⟨5, (2 : ℚ) * ([8, 3] : List ℚ).headI⟩] := by
  have h := C2_seal_one_constraint_front_capacity
    { Cpu.mk0 5 [8, 3] with core_count := 2 } [] rfl
  exact ⟨rfl, h.1⟩

/-! ### Claim C4: the three constraints created by Disk sealing -/

/-- Claim C4: sealing a not-yet-sealed disk creates exactly three solver
constraints, in order a read constraint of capacity
`read peak × read scale`, a write constraint of capacity
`write peak × write scale`, and an aggregate constraint of capacity
`max (read peak) (write peak)`; the disk's three constraint slots hold
exactly these capacities afterwards. -/
theorem C4_seal_creates_three_constraints (d : Disk)
    (h : d.is_sealed = false) :
    (d.seal_c.2 =
        [d.read_peak * d.read_scale, d.write_peak * d.write_scale,
          max d.read_peak d.write_peak] ∧
      d.seal_c.2.length = 3) ∧
      d.seal.constraint_read = some (d.read_peak * d.read_scale) ∧
      d.seal.constraint_write = some (d.write_peak * d.write_scale) ∧
      d.seal.constraint = some (max d.read_peak d.write_peak) := by
  simp [Disk.seal, Disk.seal_c, h]

/-- Witness for C4 at a concrete disk with read bandwidth 100 and write
bandwidth 200. -/
theorem C4_seal_creates_three_constraints_witness :
    (Disk.mk0 100 200).is_sealed = false ∧
      (Disk.mk0 100 200).seal.constraint = some 200 := by
  have h := C4_seal_creates_three_constraints (Disk.mk0 100 200) rfl
  refine ⟨rfl, ?_⟩
  rw [h.2.2.2]
  norm_num [Disk.mk0]

/-! ### Claim C3: disk bandwidth profile events -/

/-- Claim C3 (code_bug evidence): on a sealed disk with read bandwidth
100 and write bandwidth 200 (all scales 1), firing the read-bandwidth
profile event with value 50 rewrites the read peak to 50 as claimed, but
updates the capacity of the AGGREGATE constraint (`get_constraint()`) to
50 while leaving the read constraint at its sealed capacity 100: the
source updates the wrong constraint, contradicting the claim that the
read constraint's capacity becomes `v × scale` (and breaking the sealing
invariant that the aggregate holds `max read write = 200`). -/
theorem C3_read_event_updates_aggregate_not_read :
    ((Disk.mk0 100 200).seal.apply_event DiskEvent.read_bw 50).read_peak =
        50 ∧
      ((Disk.mk0 100 200).seal.apply_event
          DiskEvent.read_bw 50).constraint_read = some 100 ∧
      ((Disk.mk0 100 200).seal.apply_event DiskEvent.read_bw 50).constraint =
        some 50 ∧
      ((Disk.mk0 100 200).seal.apply_event
          DiskEvent.read_bw 50).constraint_read ≠
        some (50 * ((Disk.mk0 100 200).seal.apply_event
          DiskEvent.read_bw 50).read_scale) := by
  refine ⟨rfl, ?_, ?_, ?_⟩ <;>
    norm_num [Disk.mk0, Disk.seal, Disk.seal_c, Disk.apply_event,
      Disk.set_read_bandwidth, update_constraint_bound]

/-! ### Claim C5: the variable created by io_start -/

/-- Modifying the element just appended to a list. -/
theorem modify_append_singleton {α : Type} (f : α → α) (l : List α) (a : α) :
    List.modify f l.length (l ++ [a]) = l ++ [f a] := by
  have h : l.length < (l ++ [a]).length := by simp
  rw [List.modify_eq_take_cons_drop h]
  simp

/-- Claim C5, counterexample: starting a READ of 1000 bytes on disk 7 in
an empty system expands the new variable into exactly two constraints
(the aggregate and the read constraint), not three as claimed. -/
theorem C5_io_start_touches_two_not_three :
    let r := io_start ⟨[]⟩ 7 true 1000 OpType.READ
    (r.1.vars.getD 0 default).elems =
        [(⟨7, DiskConstraintKind.aggregate⟩, 1),
          (⟨7, DiskConstraintKind.read_c⟩, 1)] ∧
      (r.1.vars.getD 0 default).elems.length ≠ 3 := by
  constructor
  · rfl
  · intro h
    rw [show (io_start ⟨[]⟩ 7 true 1000 OpType.READ).1.vars.getD 0 default =
        ⟨0, 1, -1, 3, [(⟨7, DiskConstraintKind.aggregate⟩, 1),
          (⟨7, DiskConstraintKind.read_c⟩, 1)]⟩ from rfl] at h
    simp at h

/-- Claim C5, amended: `io_start` creates exactly one solver variable
(with sharing penalty 1, bound −1 and room declared for 3 constraints),
returns an action carrying the I/O size as cost and `not is_on` as its
failed flag, and expands the variable with coefficient 1 into exactly
TWO constraints of the target disk — the aggregate and, per the
operation type, the read or the write constraint — touching no
constraint of any other resource. -/
theorem C5_io_start_one_variable_two_disk_constraints (sys : DiskLmmSys)
    (disk : ℕ) (disk_on : Bool) (size : ℚ) (ty : OpType) :
    let r := io_start sys disk disk_on size ty
    r.1.vars = sys.vars ++
        [⟨sys.vars.length, 1, -1, 3,
          [(⟨disk, DiskConstraintKind.aggregate⟩, 1),
            (⟨disk, kind_of_op ty⟩, 1)]⟩] ∧
      r.1.vars.length = sys.vars.length + 1 ∧
      r.2.variable_idx = sys.vars.length ∧
      r.2.cost = size ∧ r.2.failed = (! disk_on) ∧
      (r.1.vars.getD r.2.variable_idx default).elems.length = 2 ∧
      (∀ e ∈ (r.1.vars.getD r.2.variable_idx default).elems,
        e.1.disk = disk ∧ e.2 = 1) := by
  have hvars : (io_start sys disk disk_on size ty).1.vars = sys.vars ++
      [⟨sys.vars.length, 1, -1, 3,
        [(⟨disk, DiskConstraintKind.aggregate⟩, 1),
          (⟨disk, kind_of_op ty⟩, 1)]⟩] := by
    cases ty <;>
      simp [io_start, variable_new, expand, kind_of_op,
        modify_append_singleton]
  have hgetD : ((io_start sys disk disk_on size ty).1.vars.getD
      (io_start sys disk disk_on size ty).2.variable_idx default) =
      ⟨sys.vars.length, 1, -1, 3,
        [(⟨disk, DiskConstraintKind.aggregate⟩, 1),
          (⟨disk, kind_of_op ty⟩, 1)]⟩ := by
    rw [hvars.symm.symm]
    show ((sys.vars ++ [_]).getD sys.vars.length default) = _
    rw [List.getD_eq_getElem?_getD]
    simp
  refine ⟨hvars, ?_, rfl, rfl, rfl, ?_, ?_⟩
  · rw [hvars]; simp
  · rw [hgetD]; rfl
  · rw [hgetD]
    intro e he
    simp only [List.mem_cons, List.not_mem_nil, or_false] at he
    rcases he with h | h
    · rw [h]; exact ⟨rfl, rfl⟩
    · rw [h]; exact ⟨rfl, rfl⟩

/-! ### Claims C6 and C10: action progress updates -/

/-- The remaining work after one update step, in closed form. -/
theorem update_one_core_remains (p d : ℚ) (a : ResourceAction) :
    (update_one_core p d a).remains =
      if a.remains - p ≤ 0 then 0 else a.remains - p := by
  unfold update_one_core update_max_duration update_remains
  dsimp only
  split <;> (split <;> rfl)

/-- The remaining work never goes below zero. -/
theorem update_one_core_nonneg (p d : ℚ) (a : ResourceAction) :
    0 ≤ (update_one_core p d a).remains := by
  rw [update_one_core_remains]
  split
  · exact le_refl 0
  · rename_i h
    push_neg at h
    linarith

/-- A non-suspended action whose remaining work is exhausted by the
update step finishes. -/
theorem update_one_core_zero_finished (p d : ℚ) (a : ResourceAction)
    (hp : 0 < a.sharing_penalty)
    (h0 : (update_one_core p d a).remains = 0) :
    (update_one_core p d a).state = ActionState.FINISHED := by
  have hr : (update_one_core p d a).remains =
      (update_max_duration (update_remains a p) d).remains := by
    unfold update_one_core
    dsimp only
    split <;> rfl
  have hcond : ((update_max_duration (update_remains a p) d).remains ≤ 0 ∧
      0 < (update_max_duration (update_remains a p) d).sharing_penalty) := by
    constructor
    · rw [← hr, h0]
    · exact hp
  unfold update_one_core
  dsimp only
  rw [if_pos (Or.inl hcond)]

/-- Claim C6, counterexample: a started, suspended (sharing penalty 0)
action with remaining work already 0 — a zero-cost action suspended
before progressing — still has remaining 0 after
`update_actions_state_full`, yet its state stays STARTED, neither
FINISHED nor FAILED: the finish test requires a positive sharing
penalty. -/
theorem C6_suspended_zero_action_not_finished :
    let a : ResourceAction := ⟨0, none, 0, 0, ActionState.STARTED⟩
    ((update_actions_state_full 1 [a]).getD 0 a).remains = 0 ∧
      ((update_actions_state_full 1 [a]).getD 0 a).state =
        ActionState.STARTED ∧
      ActionState.STARTED ≠ ActionState.FINISHED ∧
      ActionState.STARTED ≠ ActionState.FAILED := by
  refine ⟨?_, ?_, by decide, by decide⟩ <;>
    norm_num [update_actions_state_full, cpu_update_one, update_one_core,
      update_remains, update_max_duration, max_duration_reached]

/-- Claim C6, amended: for every started action of the CPU or Disk
model, one step of `update_actions_state` keeps the remaining work ≥ 0;
and after the step, every action whose remaining work has reached 0 and
whose sharing penalty is positive (not suspended) is in state FINISHED —
a suspended action at remaining 0 is exempt. -/
theorem C6_remains_nonneg_and_active_zero_finished (delta : ℚ)
    (a : ResourceAction) :
    0 ≤ (cpu_update_one delta a).remains ∧
      0 ≤ (disk_update_one delta a).remains ∧
      ((cpu_update_one delta a).remains = 0 → 0 < a.sharing_penalty →
        (cpu_update_one delta a).state = ActionState.FINISHED) ∧
      ((disk_update_one delta a).remains = 0 → 0 < a.sharing_penalty →
        (disk_update_one delta a).state = ActionState.FINISHED) := by
  refine ⟨update_one_core_nonneg _ _ _, update_one_core_nonneg _ _ _,
    ?_, ?_⟩
  · intro h0 hp
    exact update_one_core_zero_finished _ _ _ hp h0
  · intro h0 hp
    exact update_one_core_zero_finished _ _ _ hp h0

/-- Floor bound used by the rint lemmas, in ℚ form. -/
theorem floor_bounds (q : ℚ) : ((⌊q⌋ : ℤ) : ℚ) ≤ q ∧ q < (⌊q⌋ : ℚ) + 1 :=
  ⟨Int.floor_le q, Int.lt_floor_add_one q⟩

/-- The rint of a rational is within one half of it. -/
theorem rintQ_dist (q : ℚ) : |q - rintQ q| ≤ 1 / 2 := by
  obtain ⟨hf, hf1⟩ := floor_bounds q
  unfold rintQ
  split_ifs with h1 h2 h3
  · rw [abs_of_nonneg (by linarith)]
    linarith
  · push_cast
    rw [abs_of_nonpos (by linarith)]
    linarith
  · rw [abs_of_nonneg (by linarith)]
    linarith
  · push_cast
    rw [abs_of_nonpos (by linarith)]
    linarith

/-- The rint of a rational is a nearest integer to it. -/
theorem rintQ_nearest (q : ℚ) (m : ℤ) : |q - rintQ q| ≤ |q - m| := by
  obtain ⟨hf, hf1⟩ := floor_bounds q
  rcases le_or_lt m ⌊q⌋ with hm | hm
  · have hmq : (m : ℚ) ≤ (⌊q⌋ : ℚ) := by exact_mod_cast hm
    rw [abs_of_nonneg (by linarith : (0 : ℚ) ≤ q - m)]
    unfold rintQ
    split_ifs with h1 h2 h3
    · rw [abs_of_nonneg (by linarith)]
      linarith
    · push_cast
      rw [abs_of_nonpos (by linarith)]
      linarith
    · rw [abs_of_nonneg (by linarith)]
      linarith
    · push_cast
      rw [abs_of_nonpos (by linarith)]
      linarith
  · have hmq : (⌊q⌋ : ℚ) + 1 ≤ (m : ℚ) := by exact_mod_cast hm
    rw [abs_of_nonpos (by linarith : q - m ≤ 0)]
    unfold rintQ
    split_ifs with h1 h2 h3
    · rw [abs_of_nonneg (by linarith)]
      linarith
    · push_cast
      rw [abs_of_nonpos (by linarith)]
      linarith
    · rw [abs_of_nonneg (by linarith)]
      linarith
    · push_cast
      rw [abs_of_nonpos (by linarith)]
      linarith

/-- Claim C10: one `DiskS19Model::update_actions_state` step on a
started disk action with integer remaining work `k` sets the remaining
work to `max 0 (k − rint(value·Δt))` — the progress subtracted is
`rint(value·Δt)`, a whole number of bytes, clamped by the remaining
work — and `rint(value·Δt)` is a nearest integer to the allocated
progress `value·Δt` (within one half of it, and at distance no larger
than any other integer's). -/
theorem C10_disk_progress_is_rint (delta : ℚ) (a : ResourceAction) (k : ℤ)
    (hk : a.remains = (k : ℚ)) :
    (disk_update_one delta a).remains =
        ((max 0 (k - rintQ (a.value * delta)) : ℤ) : ℚ) ∧
      a.remains - (disk_update_one delta a).remains =
        ((min k (rintQ (a.value * delta)) : ℤ) : ℚ) ∧
      |a.value * delta - rintQ (a.value * delta)| ≤ 1 / 2 ∧
      (∀ m : ℤ, |a.value * delta - rintQ (a.value * delta)| ≤
        |a.value * delta - m|) := by
  have hrem : (disk_update_one delta a).remains =
      ((max 0 (k - rintQ (a.value * delta)) : ℤ) : ℚ) := by
    show (update_one_core ((rintQ (a.value * delta) : ℚ)) delta a).remains = _
    rw [update_one_core_remains, hk]
    push_cast
    rcases le_or_lt ((k : ℚ) - (rintQ (a.value * delta) : ℚ)) 0 with h | h
    · rw [if_pos h, max_eq_left (by linarith)]
    · rw [if_neg (not_le.mpr h), max_eq_right (by linarith)]
  refine ⟨hrem, ?_, rintQ_dist _, fun m => rintQ_nearest _ m⟩
  rw [hrem, hk]
  have hz : k - max 0 (k - rintQ (a.value * delta)) =
      min k (rintQ (a.value * delta)) := by omega
  push_cast [← hz]
  ring

/-- Witness for C10: a started disk action of 10 remaining bytes with
allocated rate 3 over Δt = 1 ends the step with 7 bytes remaining. -/
theorem C10_disk_progress_is_rint_witness :
    ((⟨10, none, 1, 3, ActionState.STARTED⟩ : ResourceAction).remains =
        ((10 : ℤ) : ℚ)) ∧
      (disk_update_one 1
            (⟨10, none, 1, 3, ActionState.STARTED⟩ : ResourceAction)).remains =
        ((max 0 (10 - rintQ ((3 : ℚ) * 1)) : ℤ) : ℚ) := by
  have h := C10_disk_progress_is_rint 1
    (⟨10, none, 1, 3, ActionState.STARTED⟩ : ResourceAction) 10 (by norm_num)
  exact ⟨by norm_num, h.1⟩

/-! ### Claim C7: the Raw synchronization activity -/

/-- Claim C7: starting a Raw activity with host `h` and timeout `t`
binds a CPU sleep action of `t` seconds on `h`; when that action is
FINISHED, `post` moves the Raw to SRC_TIMEOUT and answers the single
waiting actor's simcall with no error; when the action is FAILED, `post`
moves the Raw to FAILED and the waiting actor is answered carrying a
HostFailure error (and is marked to die). -/
theorem C7_raw_timeout_and_failure (r : Raw) (issuer : ℕ)
    (hsim : r.simcalls = [issuer]) :
    (Raw.start r).surf_action =
        some ⟨r.host, r.timeout, ActionState.STARTED⟩ ∧
      (∀ act, r.surf_action = some act →
        act.state = ActionState.FINISHED →
        ∃ f, r.post = some f ∧
          f.raw.state = ActivityState.SRC_TIMEOUT ∧
          f.answered_issuer = issuer ∧ f.issuer_error = none ∧
          f.issuer_waiting_cleared = true) ∧
      (∀ act, r.surf_action = some act →
        act.state = ActionState.FAILED →
        ∃ f, r.post = some f ∧
          f.raw.state = ActivityState.FAILED ∧
          f.answered_issuer = issuer ∧
          f.issuer_error = some "HostFailure" ∧
          f.issuer_wannadie = true ∧ f.issuer_waiting_cleared = true) := by
  obtain ⟨rh, rt, rsa, rst, rsc⟩ := r
  obtain rfl : rsc = [issuer] := hsim
  refine ⟨rfl, ?_, ?_⟩
  · rintro ⟨ah, ad, ast⟩ rfl rfl
    exact ⟨⟨⟨rh, rt, none, ActivityState.SRC_TIMEOUT, []⟩, issuer, none,
      false, true⟩, rfl, rfl, rfl, rfl, rfl⟩
  · rintro ⟨ah, ad, ast⟩ rfl rfl
    exact ⟨⟨⟨rh, rt, none, ActivityState.FAILED, []⟩, issuer,
      some "HostFailure", true, true⟩, rfl, rfl, rfl, rfl, rfl, rfl⟩

/-- Witness for C7 on a Raw activity on host 3 with timeout 5 whose
single waiting simcall was issued by actor 42. -/
theorem C7_raw_timeout_and_failure_witness :
    let r : Raw := ⟨3, 5, some ⟨3, 5, ActionState.FINISHED⟩,
      ActivityState.WAITING, [42]⟩
    r.simcalls = [42] ∧
      (Raw.start r).surf_action = some ⟨3, 5, ActionState.STARTED⟩ := by
  exact ⟨rfl,
    (C7_raw_timeout_and_failure
      ⟨3, 5, some ⟨3, 5, ActionState.FINISHED⟩, ActivityState.WAITING, [42]⟩
      42 rfl).1⟩

/-! ### Claim C9: order of activity post-processing -/

/-- The wake-up trace distributes over model-list concatenation. -/
theorem wake_all_append (ms1 ms2 : List Model) :
    wake_all_waiting_actors (ms1 ++ ms2) =
      wake_all_waiting_actors ms1 ++ wake_all_waiting_actors ms2 := by
  induction ms1 with
  | nil => rfl
  | cons m tl ih =>
      simp [wake_all_waiting_actors, ih]

/-- Claim C9: the wake-up trace of `wake_all_waiting_actors` processes
the models in registration order (`add_model` appends, and the model
added last contributes the final segment of the trace), and for each
model `k` the trace is exactly: everything from the models before `k`,
then all of model `k`'s failed actions' activities, then all of its done
actions' activities, then everything from the models after `k` — so
within each model every failed action's activity is post-processed
strictly before any done action's activity of that model. -/
theorem C9_wake_failed_before_done (ms : List Model) (m : Model) (k : ℕ)
    (hk : k < ms.length) :
    wake_all_waiting_actors ms =
        wake_all_waiting_actors (ms.take k) ++
          (drain_actions (ms.get ⟨k, hk⟩).failed_actions ++
            drain_actions (ms.get ⟨k, hk⟩).done_actions ++
            wake_all_waiting_actors (ms.drop (k + 1))) ∧
      wake_all_waiting_actors (add_model ms m) =
        wake_all_waiting_actors ms ++
          (drain_actions m.failed_actions ++
            drain_actions m.done_actions) := by
  constructor
  · conv_lhs => rw [← List.take_append_drop k ms]
    rw [wake_all_append]
    congr 1
    rw [List.drop_eq_getElem_cons hk]
    simp [wake_all_waiting_actors, List.get_eq_getElem]
  · rw [add_model, wake_all_append]
    simp [wake_all_waiting_actors]

/-- Witness for C9: two models, the second holding a failed action with
no activity, a failed action owning activity 3 and a done action owning
activity 4; its failed activity 3 appears in the trace before its done
activity 4, after all of model one's activities. -/
theorem C9_wake_failed_before_done_witness :
    (1 < ([⟨[⟨some 1⟩], [⟨some 2⟩]⟩, ⟨[⟨none⟩, ⟨some 3⟩], [⟨some 4⟩]⟩] :
        List Model).length) ∧
      wake_all_waiting_actors
          [⟨[⟨some 1⟩], [⟨some 2⟩]⟩, ⟨[⟨none⟩, ⟨some 3⟩], [⟨some 4⟩]⟩] =
        wake_all_waiting_actors
            ([⟨[⟨some 1⟩], [⟨some 2⟩]⟩,
              ⟨[⟨none⟩, ⟨some 3⟩], [⟨some 4⟩]⟩].take 1) ++
          (drain_actions [⟨none⟩, ⟨some 3⟩] ++ drain_actions [⟨some 4⟩] ++
            wake_all_waiting_actors
              ([⟨[⟨some 1⟩], [⟨some 2⟩]⟩,
                ⟨[⟨none⟩, ⟨some 3⟩], [⟨some 4⟩]⟩].drop 2)) := by
  have h := C9_wake_failed_before_done
    [⟨[⟨some 1⟩], [⟨some 2⟩]⟩, ⟨[⟨none⟩, ⟨some 3⟩], [⟨some 4⟩]⟩]
    ⟨[], []⟩ 1 (by norm_num)
  exact ⟨by norm_num, h.1⟩

/-! ### Claim C1: deadlock detection -/

/-- Claim C1: whenever, after a resource sub-round of `EngineImpl::run`,
the next event time is negative, no actor is in the run queue and the
list of alive actors is non-empty, the engine emits one diagnostic per
alive actor — naming the activity the actor waits on when there is one,
and its last simcall otherwise — fires the `Engine::on_deadlock` signal,
and kills every remaining actor. -/
theorem C1_deadlock_detection (time : ℚ) (to_run : List ℕ)
    (al : List EngineActor) (ht : time < 0) (hr : to_run = [])
    (ha : al ≠ []) :
    (run_deadlock_check time to_run al).on_deadlock_fired = true ∧
      (run_deadlock_check time to_run al).killed =
        al.map (fun a => a.pid) ∧
      (run_deadlock_check time to_run al).diagnostics =
        al.map actor_status ∧
      (run_deadlock_check time to_run al).diagnostics.length = al.length ∧
      ∀ a ∈ al,
        (∀ w, a.waiting_synchro = some w →
          actor_status a =
            Diagnostic.waiting_for a.pid (synchro_description w.kind)
              w.name) ∧
        (a.waiting_synchro = none →
          actor_status a = Diagnostic.last_simcall a.pid a.simcall_name) := by
  have hcond : time < 0 ∧ to_run = [] ∧ al ≠ [] := ⟨ht, hr, ha⟩
  simp only [run_deadlock_check, if_pos hcond, display_all_actor_status]
  refine ⟨by trivial, by trivial, by trivial, by simp, ?_⟩
  intro a _
  constructor
  · intro w hw
    rw [actor_status, hw]
  · intro hw
    rw [actor_status, hw]

/-- Witness for C1: at time −1 with an empty run queue, two alive actors
— one waiting on a communication, one at a simcall — trigger the
deadlock branch. -/
theorem C1_deadlock_detection_witness :
    ((-1 : ℚ) < 0) ∧
      (run_deadlock_check (-1) []
          [⟨1, "alice", some ⟨ActivityKind.comm_k, "c0"⟩, "none"⟩,
            ⟨2, "bob", none, "COMM_WAIT"⟩]).on_deadlock_fired = true ∧
      (run_deadlock_check (-1) []
          [⟨1, "alice", some ⟨ActivityKind.comm_k, "c0"⟩, "none"⟩,
            ⟨2, "bob", none, "COMM_WAIT"⟩]).killed = [1, 2] := by
  have h := C1_deadlock_detection (-1) []
    [⟨1, "alice", some ⟨ActivityKind.comm_k, "c0"⟩, "none"⟩,
      ⟨2, "bob", none, "COMM_WAIT"⟩]
    (by norm_num) rfl (by simp)
  exact ⟨by norm_num, h.1, h.2.1⟩

end SimGridKernel
